import Mathlib

/-!
# Verification of the knee-rehabilitation monitoring core

Shallow embedding, in Lean 4, of the core of the OrthoDSUHack repository:

* the device-resident orientation estimator (`calculateAngles`, `getKneeAngle`
  in the Arduino sketch),
* the device protocol engine (`handleBluetoothCommand`),
* the host-side frame parser and validator (`SerialService.handleArduinoData`,
  `arduinoDataSchema` from `shared/schema.ts`),
* the host-side link transport lifecycle (`SerialService.connect` /
  `SerialService.disconnect`),
* the dashboard session-statistics coordinator
  (`updateSessionStats` in `client/src/pages/Dashboard.tsx`),
* the promise-settlement structure of `connect`, `sendCommand` and the
  analytics (n8n) forwarder.

Floating-point values are modelled as exact rationals extended with a NaN
point (`FVal`) where the source checks `isnan`; machine strings at the wire
protocol are modelled as `List Char`.
-/

/-! ## Float-with-NaN value domain

The Arduino sketch computes in IEEE `float` and guards against NaN with
explicit `isnan` checks.  We model a float as either NaN or an exact
rational.  Arithmetic propagates NaN, as IEEE arithmetic does. -/

inductive FVal where
  | nan : FVal
  | fin : ℚ → FVal
deriving DecidableEq

def addF : FVal → FVal → FVal
  | FVal.fin a, FVal.fin b => FVal.fin (a + b)
  | _, _ => FVal.nan

def mulF : FVal → FVal → FVal
  | FVal.fin a, FVal.fin b => FVal.fin (a * b)
  | _, _ => FVal.nan

def isnanF : FVal → Bool
  | FVal.nan => true
  | FVal.fin _ => false

/-- Arduino's `abs` macro: `((x)>0?(x):-(x))`. -/
def absQ (q : ℚ) : ℚ := if q > 0 then q else -q

/-- Arduino's `constrain` macro: `(amt)<(low)?(low):((amt)>(high)?(high):(amt))`. -/
def clampQ (x lo hi : ℚ) : ℚ := if x < lo then lo else if x > hi then hi else x

/-- `constrain` applied to a possibly-NaN float: both comparisons are false on
NaN, so NaN passes through unchanged. -/
def constrainF (v : FVal) (lo hi : ℚ) : FVal :=
  match v with
  | FVal.nan => FVal.nan
  | FVal.fin q => FVal.fin (clampQ q lo hi)

/-! ## `getKneeAngle` (Arduino sketch)

```
float safeRoll = isnan(roll) ? 0 : roll;
float safePitch = isnan(pitch) ? 0 : pitch;
switch (exerciseType) {
  case 0: kneeAngle = 180 - abs(safePitch); break;
  case 1: kneeAngle = abs(safePitch); break;
  case 2: kneeAngle = abs(safeRoll); break;
  default: kneeAngle = abs(safePitch);
}
kneeAngle = constrain(kneeAngle, 0, 160);
if (isnan(kneeAngle)) kneeAngle = 0;
```
In the exact-rational model the final `isnan` check can never fire (rational
arithmetic has no NaN), so the function lands in `ℚ` directly. -/

def safeF : FVal → ℚ
  | FVal.nan => 0
  | FVal.fin q => q

def getKneeAngle (exerciseType : ℤ) (roll pitch : FVal) : ℚ :=
  let safeRoll := safeF roll
  let safePitch := safeF pitch
  let kneeAngle : ℚ :=
    if exerciseType = 0 then 180 - absQ safePitch
    else if exerciseType = 1 then absQ safePitch
    else if exerciseType = 2 then absQ safeRoll
    else absQ safePitch
  clampQ kneeAngle 0 160

/-- Modelled from the spec: the joint-angle formula as §4.1 words it —
mode 0 = 180 − |pitch|, mode 1 = |pitch|, mode 2 = |roll|, unknown mode
falls back to extension's formula.  Compared against `getKneeAngle`. -/
def kneeAngleSpecFormula (mode : ℤ) (roll pitch : ℚ) : ℚ :=
  if mode = 0 then 180 - absQ pitch
  else if mode = 1 then absQ pitch
  else if mode = 2 then absQ roll
  else absQ pitch

/-! ## `calculateAngles` (Arduino sketch)

State carried across ticks: `roll`, `pitch`, `yaw`, the three accumulated
gyro integrals, and `previousTime`.  Per-tick inputs are the two
accelerometer-derived tilt angles and the three bias-corrected gyro rates;
they are taken as arbitrary `FVal`s (the model's over-approximation of
whatever the float trigonometry produced, NaN included). -/

structure EstState where
  roll : FVal
  pitch : FVal
  yaw : FVal
  gyroAngleX : FVal
  gyroAngleY : FVal
  gyroAngleZ : FVal
  previousTime : ℚ
deriving DecidableEq

/-- `elapsedTime = (currentTime - previousTime) / 1000;
if (elapsedTime <= 0) elapsedTime = 0.001;` -/
def clampDtQ (e : ℚ) : ℚ := if e ≤ 0 then 1 / 1000 else e

/-- The complementary-filter blend:
`alpha * (prev + rate * dt) + (1 - alpha) * accAngle`. -/
def blendF (alpha : ℚ) (prev rate : FVal) (dt : ℚ) (accAngle : FVal) : FVal :=
  addF (mulF (FVal.fin alpha) (addF prev (mulF rate (FVal.fin dt))))
       (mulF (FVal.fin (1 - alpha)) accAngle)

/-- One invocation of `calculateAngles`. -/
def calcTick (alpha : ℚ) (st : EstState) (currentTime : ℚ)
    (accAngleX accAngleY gyroX gyroY gyroZ : FVal) : EstState :=
  let elapsedTime := clampDtQ ((currentTime - st.previousTime) / 1000)
  let gyroAngleX' := addF st.gyroAngleX (mulF gyroX (FVal.fin elapsedTime))
  let gyroAngleY' := addF st.gyroAngleY (mulF gyroY (FVal.fin elapsedTime))
  let gyroAngleZ' := addF st.gyroAngleZ (mulF gyroZ (FVal.fin elapsedTime))
  let newRoll := blendF alpha st.roll gyroX elapsedTime accAngleX
  let newPitch := blendF alpha st.pitch gyroY elapsedTime accAngleY
  let roll1 := if isnanF newRoll then st.roll else newRoll
  let pitch1 := if isnanF newPitch then st.pitch else newPitch
  let yaw1 := gyroAngleZ'
  let roll2 := if isnanF roll1 then FVal.fin 0 else roll1
  let pitch2 := if isnanF pitch1 then FVal.fin 0 else pitch1
  let yaw2 := if isnanF yaw1 then FVal.fin 0 else yaw1
  { roll := constrainF roll2 (-180) 180
    pitch := constrainF pitch2 (-180) 180
    yaw := constrainF yaw2 (-180) 180
    gyroAngleX := gyroAngleX'
    gyroAngleY := gyroAngleY'
    gyroAngleZ := gyroAngleZ'
    previousTime := currentTime }

/-- A float value that is finite (not NaN) and within `[-180, 180]`. -/
def finInRange : FVal → Bool
  | FVal.nan => false
  | FVal.fin q => decide (-180 ≤ q) && decide (q ≤ 180)

/-! ## Session coordinator (`updateSessionStats` in `Dashboard.tsx`)

```
const updateSessionStats = (data: ArduinoData) => {
  if (!sessionStartTime) return;
  setSessionStats(prev => {
    if (!prev) return null;
    const duration = Date.now() - sessionStartTime;
    const readingCount = prev.readingCount + 1;
    const maxAngle = Math.max(prev.maxAngle, data.kneeAngle);
    const avgAngle = (prev.avgAngle * prev.readingCount + data.kneeAngle) / readingCount;
    const targetRange = 90;
    const angleScore = Math.max(0, 10 - Math.abs(data.kneeAngle - targetRange) / 10);
    const qualityScore = Math.min(10, (angleScore + (prev.qualityScore || 0)) / 2);
    return { duration, readingCount, maxAngle, avgAngle, qualityScore };
  });
};
```
Note that the frame's `sessionId` is never consulted. -/

/-- The `rawSensorData` object of a telemetry frame. -/
structure RawSensorDataM where
  accelX : ℚ
  accelY : ℚ
  accelZ : ℚ
  gyroX : ℚ
  gyroY : ℚ
  gyroZ : ℚ
deriving DecidableEq

/-- The `angles` object of a telemetry frame. -/
structure AnglesM where
  roll : ℚ
  pitch : ℚ
  yaw : ℚ
deriving DecidableEq

/-- The validated telemetry frame (`ArduinoData` in `shared/schema.ts`). -/
structure ArduinoDataM where
  sessionId : List Char
  timestamp : ℚ
  exerciseType : ℤ
  rawSensorData : RawSensorDataM
  angles : AnglesM
  kneeAngle : ℚ
  temperature : ℚ
deriving DecidableEq

structure SessionStatsM where
  duration : ℕ
  readingCount : ℕ
  maxAngle : ℚ
  avgAngle : ℚ
  qualityScore : Option ℚ
deriving DecidableEq

structure DashState where
  currentSessionId : Option (List Char)
  sessionStartTime : Option ℕ
  sessionStats : Option SessionStatsM
deriving DecidableEq

/-- `Math.max` on non-NaN doubles. -/
def maxQ (a b : ℚ) : ℚ := if a ≤ b then b else a

/-- `Math.min` on non-NaN doubles. -/
def minQ (a b : ℚ) : ℚ := if a ≤ b then a else b

/-- `Math.abs` on non-NaN doubles. -/
def absJs (q : ℚ) : ℚ := if q < 0 then -q else q

def updateSessionStats (now : ℕ) (data : ArduinoDataM) (st : DashState) : DashState :=
  match st.sessionStartTime with
  | none => st
  | some t0 =>
    match st.sessionStats with
    | none => st
    | some prev =>
      let duration := now - t0
      let readingCount := prev.readingCount + 1
      let maxAngle := maxQ prev.maxAngle data.kneeAngle
      let avgAngle := (prev.avgAngle * prev.readingCount + data.kneeAngle) / readingCount
      let angleScore := maxQ 0 (10 - absJs (data.kneeAngle - 90) / 10)
      let qualityScore := minQ 10 ((angleScore + prev.qualityScore.getD 0) / 2)
      { st with
          sessionStats := some ⟨duration, readingCount, maxAngle, avgAngle,
            some qualityScore⟩ }

/-- The stats object installed by the `session_started` handler:
`{ duration: 0, readingCount: 0, maxAngle: 0, avgAngle: 0 }`
(`qualityScore` absent). -/
def dashInitStats : SessionStatsM := ⟨0, 0, 0, 0, none⟩

/-- A telemetry frame whose only varying field is the joint angle, used to
drive the aggregate recurrence. -/
def mkFrame (sid : List Char) (x : ℚ) : ArduinoDataM :=
  ⟨sid, 0, 0, ⟨0, 0, 0, 0, 0, 0⟩, ⟨0, 0, 0⟩, x, 0⟩

/-- Feed a list of joint-angle readings through `updateSessionStats`,
starting from a freshly started session. -/
def runStats (xs : List ℚ) : DashState :=
  xs.foldl (fun st x => updateSessionStats 0 (mkFrame (("s1").data) x) st)
    ⟨some (("s1").data), some 0, some dashInitStats⟩

/-! ## Wire-protocol strings

Protocol lines are newline-terminated text; we model a line as `List Char`.
The literal tags of the protocol table. -/

def kneeDataTag : List Char := ("KNEE_DATA:").data
def sessionStartedTag : List Char := ("SESSION_STARTED:").data
def sessionStoppedLine : List Char := ("SESSION_STOPPED").data
def calibratingLine : List Char := ("CALIBRATING").data
def calibrationCompleteLine : List Char := ("CALIBRATION_COMPLETE").data
def systemReadyLine : List Char := ("SYSTEM_READY").data
def statusTag : List Char := ("STATUS:").data
def startSessionCmdTag : List Char := ("START_SESSION:").data
def stopSessionCmd : List Char := ("STOP_SESSION").data
def setExerciseCmdTag : List Char := ("SET_EXERCISE:").data
def calibrateCmd : List Char := ("CALIBRATE").data
def getStatusCmd : List Char := ("GET_STATUS").data
def exerciseSetTag : List Char := ("EXERCISE_SET:").data
def recordingWord : List Char := ("RECORDING").data
def idleWord : List Char := ("IDLE").data

/-- `String.startsWith` / `startsWith` on char lists. -/
def startsWithL : List Char → List Char → Bool
  | [], _ => true
  | _ :: _, [] => false
  | p :: ps, c :: cs => if p = c then startsWithL ps cs else false

/-! ### Decimal integers on the wire

The sketch converts with Arduino's `String::toInt` (C `atol`: an optional
leading sign followed by a digit prefix, 0 when there is none) and formats
with `String(int)` (plain decimal).  The decimal digit string of a natural
number is modelled through Mathlib's base-10 digit list. -/

def charToDigit (c : Char) : ℕ := c.toNat - 48

/-- Value of a big-endian digit string. -/
def digitsVal (cs : List Char) : ℕ := Nat.ofDigits 10 ((cs.map charToDigit).reverse)

/-- `atol` on the suffix of a command: optional sign, then the decimal value
of the longest digit prefix (0 when there is none). -/
def arduinoToInt (cs : List Char) : ℤ :=
  match cs with
  | [] => 0
  | c :: rest =>
    if c = '-' then -(digitsVal (rest.takeWhile Char.isDigit) : ℤ)
    else (digitsVal (cs.takeWhile Char.isDigit) : ℤ)

/-- `String(n)` for a natural number: its base-10 digits, most significant
first. -/
def natToChars (n : ℕ) : List Char :=
  if n = 0 then [('0')] else ((Nat.digits 10 n).map Nat.digitChar).reverse

/-- `String(i)` for an `int`. -/
def intToChars (i : ℤ) : List Char :=
  if i < 0 then '-' :: natToChars i.natAbs else natToChars i.natAbs

/-! ## JSON values and the strict telemetry schema (`shared/schema.ts`)

`JSON.parse` is a platform builtin; its output is a JSON value, modelled by
`Json` below (numbers as exact rationals: JSON literals have no NaN or
infinity).  The host parser is parameterised over the builtin
`jp : List Char → Option Json` (`none` models a thrown `SyntaxError`). -/

inductive Json where
  | null : Json
  | bool : Bool → Json
  | num : ℚ → Json
  | str : List Char → Json
  | arr : List Json → Json
  | obj : List (List Char × Json) → Json

def jsonLookup (fields : List (List Char × Json)) (k : List Char) : Option Json :=
  match fields with
  | [] => none
  | (k', v) :: rest => if k' = k then some v else jsonLookup rest k

def asNum : Json → Option ℚ
  | Json.num q => some q
  | _ => none

def asStr : Json → Option (List Char)
  | Json.str s => some s
  | _ => none

def asObjFields : Json → Option (List (List Char × Json))
  | Json.obj fs => some fs
  | _ => none

def numField (fs : List (List Char × Json)) (k : List Char) : Option ℚ :=
  (jsonLookup fs k).bind asNum

/-- The nested `rawSensorData` object schema: six numbers. -/
def validateRawSensorData (j : Json) : Option RawSensorDataM := do
  let raw ← asObjFields j
  let ax ← numField raw (("accelX").data)
  let ay ← numField raw (("accelY").data)
  let az ← numField raw (("accelZ").data)
  let gx ← numField raw (("gyroX").data)
  let gy ← numField raw (("gyroY").data)
  let gz ← numField raw (("gyroZ").data)
  pure (RawSensorDataM.mk ax ay az gx gy gz)

/-- The nested `angles: z.object({...})` schema: three numbers. -/
def validateAngles (j : Json) : Option AnglesM := do
  let ang ← asObjFields j
  let rl ← numField ang (("roll").data)
  let pt ← numField ang (("pitch").data)
  let yw ← numField ang (("yaw").data)
  pure (AnglesM.mk rl pt yw)

/-- `arduinoDataSchema.parse`: every field present with the right type;
`exerciseType` must satisfy `z.number().int().min(0).max(2)`.  Extra keys are
ignored, as zod does.  `none` models a thrown `ZodError`. -/
def validateArduinoData (j : Json) : Option ArduinoDataM := do
  let fs ← asObjFields j
  let sid ← (jsonLookup fs (("sessionId").data)).bind asStr
  let ts ← numField fs (("timestamp").data)
  let et ← numField fs (("exerciseType").data)
  let raw ← (jsonLookup fs (("rawSensorData").data)).bind validateRawSensorData
  let ang ← (jsonLookup fs (("angles").data)).bind validateAngles
  let ka ← numField fs (("kneeAngle").data)
  let tp ← numField fs (("temperature").data)
  if et.den = 1 ∧ 0 ≤ et.num ∧ et.num ≤ 2 then
    pure (ArduinoDataM.mk sid ts et.num raw ang ka tp)
  else
    none

/-! ## Host frame parser (`SerialService.handleArduinoData`) -/

inductive HostEvent where
  | kneeData : ArduinoDataM → HostEvent
  | sessionStarted : List Char → HostEvent
  | sessionStopped : HostEvent
  | calibrationComplete : HostEvent
  | systemReady : HostEvent
  | statusEvent : Bool → List Char → ℤ → HostEvent
  | message : List Char → HostEvent
  | parseError : List Char → HostEvent

/-- `remainder.split(':')`. -/
def splitColonAux : List Char → List Char → List (List Char)
  | [], acc => [acc.reverse]
  | c :: rest, acc =>
    if c = ':' then acc.reverse :: splitColonAux rest [] else splitColonAux rest (c :: acc)

def splitColon (cs : List Char) : List (List Char) := splitColonAux cs []

/-- One line in, one classified event out.  The source wraps the whole
classification in `try`/`catch` and emits `parseError` with the raw line if
`JSON.parse` or the schema validation throws; all other branches cannot
throw, and an unmatched line falls through to a diagnostic `message`. -/
def handleArduinoData (jp : List Char → Option Json) (line : List Char) : HostEvent :=
  if startsWithL kneeDataTag line then
    match jp (line.drop 10) with
    | none => HostEvent.parseError line
    | some j =>
      match validateArduinoData j with
      | none => HostEvent.parseError line
      | some d => HostEvent.kneeData d
  else if startsWithL sessionStartedTag line then
    HostEvent.sessionStarted (line.drop 16)
  else if line = sessionStoppedLine then HostEvent.sessionStopped
  else if line = calibrationCompleteLine then HostEvent.calibrationComplete
  else if line = systemReadyLine then HostEvent.systemReady
  else if startsWithL statusTag line then
    let statusParts := splitColon (line.drop 7)
    HostEvent.statusEvent (statusParts.getD 0 [] = recordingWord)
      (statusParts.getD 1 []) (arduinoToInt (statusParts.getD 2 []))
  else HostEvent.message line

/-- The transport hands each received line to the parser independently; the
parser keeps no state between lines. -/
def processLines (jp : List Char → Option Json) (lines : List (List Char)) : List HostEvent :=
  lines.map (handleArduinoData jp)

/-! ## Device protocol engine (`handleBluetoothCommand`) -/

structure DeviceState where
  sessionId : List Char
  isRecording : Bool
  exerciseType : ℤ
deriving DecidableEq

/-- One Bluetooth command in, (new state, lines printed to the host) out.
`CALIBRATE` runs the calibration routine, which prints `CALIBRATING` and
then `CALIBRATION_COMPLETE`; unrecognized commands are silently ignored. -/
def handleBluetoothCommand (st : DeviceState) (command : List Char) :
    DeviceState × List (List Char) :=
  if startsWithL startSessionCmdTag command then
    let sid := command.drop 14
    ({ st with sessionId := sid, isRecording := true }, [sessionStartedTag ++ sid])
  else if command = stopSessionCmd then
    ({ st with isRecording := false, sessionId := [] }, [sessionStoppedLine])
  else if startsWithL setExerciseCmdTag command then
    let t := arduinoToInt (command.drop 13)
    ({ st with exerciseType := t }, [exerciseSetTag ++ intToChars t])
  else if command = calibrateCmd then
    (st, [calibratingLine, calibrationCompleteLine])
  else if command = getStatusCmd then
    (st, [statusTag ++ (if st.isRecording then recordingWord else idleWord) ++
      [(':')] ++ st.sessionId ++ [(':')] ++ intToChars st.exerciseType])
  else (st, [])

/-- `SerialService.startSession` merely sends `START_SESSION:<id>`;
`sendCommand` fails only when no port is connected.  No check against an
already-active session exists anywhere on the host. -/
def hostStartSession (connected : Bool) (sid : List Char) : Option (List Char) :=
  if connected then some (startSessionCmdTag ++ sid) else none

/-! ## Link transport lifecycle (`SerialService.connect` / `disconnect`)

`connect` first awaits `disconnect()` when `isConnected` is set, then
constructs a fresh `SerialPort`; on the port's `open` event it records the
active port and emits one `connected` event; on `error` it rejects.  The
port's `close` event (fired by `port.close()` inside `disconnect`) emits one
`disconnected` event.  One completed call is modelled as one atomic step;
`liveHandles` tracks the OS-level handles currently open, `portRef` the
handle `this.port` refers to, and `nextId` names fresh handles. -/

structure LinkState where
  portRef : Option ℕ
  liveHandles : List ℕ
  isConnected : Bool
  currentPortPath : Option (List Char)
  nextId : ℕ
deriving DecidableEq

inductive LinkEvent where
  | connectedEv : List Char → LinkEvent
  | disconnectedEv : LinkEvent
  | errorEv : LinkEvent
deriving DecidableEq

inductive LinkOp where
  | connectOp : Bool → List Char → LinkOp
  | disconnectOp : LinkOp
deriving DecidableEq

def initLinkState : LinkState := ⟨none, [], false, none, 0⟩

/-- `disconnect()`: when `this.port` exists and is open, `close()` it (the
`close` handler clears the flags and emits `disconnected`, then the close
callback nulls the references); otherwise just null the references. -/
def disconnectStep (st : LinkState) : LinkState × List LinkEvent :=
  match st.portRef with
  | some h =>
    if h ∈ st.liveHandles then
      (⟨none, st.liveHandles.erase h, false, none, st.nextId⟩, [LinkEvent.disconnectedEv])
    else
      (⟨none, st.liveHandles, false, none, st.nextId⟩, [])
  | none => (⟨none, st.liveHandles, false, none, st.nextId⟩, [])

/-- `connect(path, baudRate)`: close the previous connection first when
`isConnected`; then open a fresh port.  `succeeds = true` models the `open`
event firing (resolve `true`, one `connected` event); `succeeds = false`
models the `error` event firing first (reject, no new live handle). -/
def connectStep (st : LinkState) (succeeds : Bool) (path : List Char) :
    LinkState × List LinkEvent :=
  let pre := if st.isConnected then disconnectStep st else (st, [])
  let st1 := pre.1
  let h := st1.nextId
  if succeeds then
    (⟨some h, h :: st1.liveHandles, true, some path, h + 1⟩,
      pre.2 ++ [LinkEvent.connectedEv path])
  else
    (⟨some h, st1.liveHandles, st1.isConnected, st1.currentPortPath, h + 1⟩,
      pre.2 ++ [LinkEvent.errorEv])

def linkStep (st : LinkState) : LinkOp → LinkState × List LinkEvent
  | LinkOp.connectOp s p => connectStep st s p
  | LinkOp.disconnectOp => disconnectStep st

/-- Run a sequence of completed `connect`/`disconnect` calls from a state,
collecting the emitted events in order. -/
def runLink : LinkState → List LinkOp → LinkState × List LinkEvent
  | st, [] => (st, [])
  | st, op :: ops =>
    let r := linkStep st op
    let rest := runLink r.1 ops
    (rest.1, r.2 ++ rest.2)

def isConnectedEv : LinkEvent → Bool
  | LinkEvent.connectedEv _ => true
  | _ => false

def countConnected (evs : List LinkEvent) : ℕ := evs.countP isConnectedEv

def isSuccessfulConnect : LinkOp → Bool
  | LinkOp.connectOp true _ => true
  | _ => false

def countSuccessfulConnects (ops : List LinkOp) : ℕ := ops.countP isSuccessfulConnect

/-- The transport invariant: no live handle and the flag down, or exactly one
live handle, referenced by `this.port`, with the flag up. -/
def linkInv (st : LinkState) : Bool :=
  match st.liveHandles with
  | [] => !st.isConnected
  | h :: [] => st.isConnected && (st.portRef == some h)
  | _ => false

/-! ## Promise settlement (`connect`, `sendCommand`, the n8n forwarder)

`connect` returns a promise whose only handlers are the port's `open` and
`error` events; `sendCommand` resolves only inside the `write` callback; the
n8n `fetch` calls carry no timeout or abort signal.  Settlement is therefore
a pure function of the signals the environment delivers. -/

inductive PortSignal where
  | openS : PortSignal
  | errorS : PortSignal
  | closeS : PortSignal
  | dataS : PortSignal
deriving DecidableEq

/-- What the promise returned by `connect` settles to, given the stream of
signals the underlying port emits: the first `open` resolves it (`true`),
the first `error` rejects it (`false`), and nothing else settles it. -/
def connectResolution : List PortSignal → Option Bool
  | [] => none
  | PortSignal.openS :: _ => some true
  | PortSignal.errorS :: _ => some false
  | _ :: rest => connectResolution rest

/-- `sendCommand`'s promise resolves only when the `write` callback is
invoked (`none` = callback never invoked; `some hasError` = invoked). -/
def sendCommandResolution (callback : Option Bool) : Option Bool :=
  match callback with
  | none => none
  | some hasError => some (!hasError)

inductive FetchOutcome where
  | pending : FetchOutcome
  | ok : FetchOutcome
  | httpError : FetchOutcome
  | networkThrow : FetchOutcome
deriving DecidableEq

/-- `N8nService.sendSensorData` awaits a bare `fetch` with no timeout: it
settles exactly when the fetch settles (`true` = data sent, `false` = error
path taken). -/
def sendSensorDataResolution : FetchOutcome → Option Bool
  | FetchOutcome.pending => none
  | FetchOutcome.ok => some true
  | FetchOutcome.httpError => some false
  | FetchOutcome.networkThrow => some false

/-! ## Concrete fixtures

Concrete states and inputs used to evaluate the model at specific points. -/

/-- An estimator state holding finite in-range angles. -/
def estW : EstState :=
  ⟨FVal.fin 10, FVal.fin 20, FVal.fin 0, FVal.fin 0, FVal.fin 0, FVal.fin 0, 0⟩

/-- A device currently recording session `A`. -/
def devActiveA : DeviceState := ⟨("A").data, true, 0⟩

/-- A dashboard with session `A` active and freshly initialised stats. -/
def dashActiveA : DashState := ⟨some (("A").data), some 0, some dashInitStats⟩

/-- A telemetry frame for session `B` with joint angle 50. -/
def frameB : ArduinoDataM := mkFrame (("B").data) 50

/-- A concrete instantiation of the abstract `JSON.parse` parameter: it
parses the single payload `x` to an empty object (which then fails the
schema) and nothing else. -/
def jpStub : List Char → Option Json :=
  fun s => if s = ("x").data then some (Json.obj []) else none

/-! ## Helper lemmas -/

lemma clampQ_mem (x lo hi : ℚ) (h : lo ≤ hi) : lo ≤ clampQ x lo hi ∧ clampQ x lo hi ≤ hi := by
  unfold clampQ
  split
  · exact ⟨le_refl lo, h⟩
  · split
    · exact ⟨h, le_refl hi⟩
    · constructor
      · linarith [not_lt.mp (by assumption : ¬ x < lo)]
      · linarith [not_lt.mp (by assumption : ¬ x > hi)]

lemma clampQ_eq_self (x lo hi : ℚ) (h1 : lo ≤ x) (h2 : x ≤ hi) : clampQ x lo hi = x := by
  unfold clampQ
  rw [if_neg (not_lt.mpr h1), if_neg (not_lt.mpr h2)]

lemma finInRange_constrainF (v : FVal) (h : isnanF v = false) :
    finInRange (constrainF v (-180) 180) = true := by
  cases v with
  | nan => simp [isnanF] at h
  | fin q =>
    have := clampQ_mem q (-180) 180 (by norm_num)
    simp [constrainF, finInRange, this.1, this.2]

lemma startsWithL_append (p t : List Char) : startsWithL p (p ++ t) = true := by
  induction p with
  | nil => rfl
  | cons c cs ih => simp [startsWithL, ih]

lemma charToDigit_digitChar (d : ℕ) (h : d < 10) : charToDigit (Nat.digitChar d) = d := by
  interval_cases d <;> rfl

lemma isDigit_digitChar (d : ℕ) (h : d < 10) : (Nat.digitChar d).isDigit = true := by
  interval_cases d <;> rfl

lemma natToChars_all_digit (n : ℕ) : ∀ c ∈ natToChars n, c.isDigit = true := by
  intro c hc
  unfold natToChars at hc
  split at hc
  · simp at hc
    subst hc
    rfl
  · rw [List.mem_reverse, List.mem_map] at hc
    obtain ⟨d, hd, rfl⟩ := hc
    exact isDigit_digitChar d (Nat.digits_lt_base (by norm_num) hd)

lemma takeWhile_digits (cs : List Char) (h : ∀ c ∈ cs, c.isDigit = true) :
    cs.takeWhile Char.isDigit = cs := by
  induction cs with
  | nil => rfl
  | cons c rest ih =>
    rw [List.takeWhile_cons, h c (List.mem_cons_self c rest)]
    simp [ih (fun x hx => h x (List.mem_cons_of_mem c hx))]

lemma digitsVal_natToChars (n : ℕ) : digitsVal (natToChars n) = n := by
  unfold natToChars digitsVal
  split
  · subst n
    rfl
  · rw [List.map_reverse, List.reverse_reverse, List.map_map]
    have : (Nat.digits 10 n).map (charToDigit ∘ Nat.digitChar) = (Nat.digits 10 n).map id :=
      List.map_congr_left
        (fun d hd => charToDigit_digitChar d (Nat.digits_lt_base (by norm_num) hd))
    rw [this, List.map_id, Nat.ofDigits_digits]

lemma natToChars_ne_nil (n : ℕ) : natToChars n ≠ [] := by
  unfold natToChars
  split
  · simp
  · simp [Nat.digits_ne_nil_iff_ne_zero, *]

/-- Round trip: the device parses back exactly the decimal string the host
sends in `SET_EXERCISE:<n>`. -/
lemma arduinoToInt_natToChars (n : ℕ) : arduinoToInt (natToChars n) = n := by
  rcases h : natToChars n with _ | ⟨c, rest⟩
  · exact absurd h (natToChars_ne_nil n)
  · have hdig : ∀ x ∈ c :: rest, x.isDigit = true := h ▸ natToChars_all_digit n
    have hc : c.isDigit = true := hdig c (List.mem_cons_self c rest)
    have hcne : ¬ (c = '-') := by
      intro hcm
      rw [hcm] at hc
      exact absurd hc (by decide)
    have h2 : (c :: rest).takeWhile Char.isDigit = c :: rest := takeWhile_digits _ hdig
    have h3 : digitsVal (c :: rest) = n := by rw [← h, digitsVal_natToChars]
    simp [arduinoToInt, hcne, h2, h3]

lemma intToChars_ofNat (n : ℕ) : intToChars (n : ℤ) = natToChars n := by
  unfold intToChars
  rw [if_neg (by exact_mod_cast Int.not_lt.mpr (Int.ofNat_nonneg n)), Int.natAbs_ofNat]

lemma isnanF_nan : isnanF FVal.nan = true := rfl

lemma isnanF_guard (v : FVal) : isnanF (if isnanF v then FVal.fin 0 else v) = false := by
  cases v <;> simp [isnanF]

lemma isnanF_of_finInRange (v : FVal) (h : finInRange v = true) : isnanF v = false := by
  cases v <;> simp [finInRange, isnanF] at h ⊢

lemma constrainF_of_finInRange (v : FVal) (h : finInRange v = true) :
    constrainF v (-180) 180 = v := by
  cases v with
  | nan => simp [finInRange] at h
  | fin q =>
    simp only [finInRange, Bool.and_eq_true, decide_eq_true_eq] at h
    simp [constrainF, clampQ_eq_self q (-180) 180 h.1 h.2]

/-- The per-step description of the session aggregate recurrence, run from an
arbitrary previous-aggregate state. -/
lemma runStats_foldl_spec :
    ∀ (xs : List ℚ) (sid : List Char) (t0 now : ℕ) (prev : SessionStatsM),
    ∃ s : SessionStatsM,
      (xs.foldl (fun st x => updateSessionStats now (mkFrame sid x) st)
          ⟨some sid, some t0, some prev⟩).sessionStats = some s ∧
      s.readingCount = prev.readingCount + xs.length ∧
      s.avgAngle * (s.readingCount : ℚ) =
        prev.avgAngle * (prev.readingCount : ℚ) + xs.sum ∧
      s.maxAngle = xs.foldl maxQ prev.maxAngle := by
  intro xs
  induction xs with
  | nil =>
    intro sid t0 now prev
    exact ⟨prev, rfl, by simp, by simp, rfl⟩
  | cons x rest ih =>
    intro sid t0 now prev
    have hstep : updateSessionStats now (mkFrame sid x) ⟨some sid, some t0, some prev⟩ =
        ⟨some sid, some t0, some ⟨now - t0, prev.readingCount + 1,
          maxQ prev.maxAngle x,
          (prev.avgAngle * (prev.readingCount : ℚ) + x) / ((prev.readingCount + 1 : ℕ) : ℚ),
          some (minQ 10 ((maxQ 0 (10 - absJs (x - 90) / 10) +
            prev.qualityScore.getD 0) / 2))⟩⟩ := rfl
    obtain ⟨s, hs, hc, ha, hm⟩ := ih sid t0 now
      ⟨now - t0, prev.readingCount + 1, maxQ prev.maxAngle x,
        (prev.avgAngle * (prev.readingCount : ℚ) + x) / ((prev.readingCount + 1 : ℕ) : ℚ),
        some (minQ 10 ((maxQ 0 (10 - absJs (x - 90) / 10) + prev.qualityScore.getD 0) / 2))⟩
    refine ⟨s, ?_, ?_, ?_, ?_⟩
    · rw [List.foldl_cons, hstep]
      exact hs
    · rw [hc]
      simp [List.length_cons]
      omega
    · rw [ha]
      have hne : ((prev.readingCount + 1 : ℕ) : ℚ) ≠ 0 := by
        exact_mod_cast Nat.succ_ne_zero prev.readingCount
      rw [div_mul_cancel₀ _ hne]
      rw [List.sum_cons]
      ring
    · rw [hm, List.foldl_cons]

/-! ### Link transport invariant lemmas -/

lemma linkInv_length (st : LinkState) (h : linkInv st = true) :
    st.liveHandles.length ≤ 1 := by
  unfold linkInv at h
  rcases hl : st.liveHandles with _ | ⟨h0, _ | ⟨h1, t⟩⟩ <;> rw [hl] at h <;> simp [hl]
  exact absurd h (by simp)

lemma disconnectStep_spec (st : LinkState) (h : linkInv st = true) :
    linkInv (disconnectStep st).1 = true ∧
    (disconnectStep st).1.liveHandles = [] ∧
    countConnected (disconnectStep st).2 = 0 ∧
    (disconnectStep st).1.isConnected = false ∧
    (disconnectStep st).1.nextId = st.nextId ∧
    (st.isConnected = true → (disconnectStep st).2 = [LinkEvent.disconnectedEv]) := by
  obtain ⟨pr, lh, conn, path, nid⟩ := st
  rcases lh with _ | ⟨h0, _ | ⟨h1, t⟩⟩
  · -- no live handle: invariant gives conn = false
    simp only [linkInv] at h
    rcases pr with _ | p
    · simp [disconnectStep, linkInv, countConnected]
      simp_all
    · simp [disconnectStep, linkInv, countConnected]
      simp_all
  · -- exactly one live handle: invariant gives conn = true and pr = some h0
    simp only [linkInv, Bool.and_eq_true, beq_iff_eq] at h
    obtain ⟨hconn, hpr⟩ := h
    subst hconn hpr
    simp [disconnectStep, linkInv, countConnected, isConnectedEv]
  · simp only [linkInv] at h
    exact absurd h (by simp)

lemma countConnected_append (a b : List LinkEvent) :
    countConnected (a ++ b) = countConnected a + countConnected b := by
  unfold countConnected
  exact List.countP_append _ _ _

lemma countSuccessfulConnects_cons (op : LinkOp) (ops : List LinkOp) :
    countSuccessfulConnects (op :: ops) =
      (if isSuccessfulConnect op then 1 else 0) + countSuccessfulConnects ops := by
  unfold countSuccessfulConnects
  rw [List.countP_cons]
  cases isSuccessfulConnect op <;> simp [Nat.add_comm]

lemma notConnected_liveHandles (st : LinkState) (h : linkInv st = true)
    (hb : st.isConnected = false) : st.liveHandles = [] := by
  obtain ⟨pr, lh, conn, path, nid⟩ := st
  simp only at hb
  subst hb
  rcases lh with _ | ⟨h0, _ | ⟨h1, t⟩⟩
  · rfl
  · simp [linkInv] at h
  · simp [linkInv] at h

lemma connectStep_spec (st : LinkState) (s : Bool) (p : List Char) (h : linkInv st = true) :
    linkInv (connectStep st s p).1 = true ∧
    countConnected (connectStep st s p).2 = (if s then 1 else 0) := by
  have hpre : linkInv (if st.isConnected then disconnectStep st else (st, [])).1 = true ∧
      (if st.isConnected then disconnectStep st else (st, [])).1.liveHandles = [] ∧
      countConnected (if st.isConnected then disconnectStep st else (st, [])).2 = 0 ∧
      (if st.isConnected then disconnectStep st else (st, [])).1.isConnected = false := by
    by_cases hc : st.isConnected = true
    · obtain ⟨h1, h2, h3, h4, _, _⟩ := disconnectStep_spec st h
      simp [hc, h1, h2, h3, h4]
    · have hb : st.isConnected = false := by
        revert hc
        cases st.isConnected <;> simp
      have hlh : st.liveHandles = [] := notConnected_liveHandles st h hb
      simp [hb, hlh, countConnected, h]
  obtain ⟨hp1, hp2, hp3, hp4⟩ := hpre
  cases s
  · constructor
    · simp only [connectStep]
      simp [linkInv, hp2, hp4]
    · have hrw : (connectStep st false p).2 =
          (if st.isConnected then disconnectStep st else (st, [])).2 ++ [LinkEvent.errorEv] := rfl
      rw [hrw, countConnected_append, hp3]
      simp [countConnected, isConnectedEv]
  · constructor
    · simp only [connectStep]
      simp [linkInv, hp2]
    · have hrw : (connectStep st true p).2 =
          (if st.isConnected then disconnectStep st else (st, [])).2 ++
            [LinkEvent.connectedEv p] := rfl
      rw [hrw, countConnected_append, hp3]
      simp [countConnected, isConnectedEv]

lemma runLink_spec :
    ∀ (ops : List LinkOp) (st : LinkState), linkInv st = true →
      linkInv (runLink st ops).1 = true ∧
      countConnected (runLink st ops).2 = countSuccessfulConnects ops := by
  intro ops
  induction ops with
  | nil =>
    intro st h
    exact ⟨h, rfl⟩
  | cons op rest ih =>
    intro st h
    have hstep : linkInv (linkStep st op).1 = true ∧
        countConnected (linkStep st op).2 = (if isSuccessfulConnect op then 1 else 0) := by
      cases op with
      | connectOp s p =>
        obtain ⟨h1, h2⟩ := connectStep_spec st s p h
        cases s <;> simp_all [linkStep, isSuccessfulConnect]
      | disconnectOp =>
        obtain ⟨h1, _, h3, _, _, _⟩ := disconnectStep_spec st h
        simp_all [linkStep, isSuccessfulConnect]
    obtain ⟨hi, hcount⟩ := ih (linkStep st op).1 hstep.1
    constructor
    · simpa [runLink] using hi
    · show countConnected ((linkStep st op).2 ++ (runLink (linkStep st op).1 rest).2) = _
      rw [countConnected_append, hstep.2, hcount, countSuccessfulConnects_cons]

/-! ### Protocol branch-selection lemmas

The literal tags decide each branch within their concrete prefix, so these
reductions hold definitionally for an arbitrary remainder. -/

lemma handleBT_start (st : DeviceState) (sid : List Char) :
    handleBluetoothCommand st (startSessionCmdTag ++ sid) =
      ({ st with sessionId := sid, isRecording := true }, [sessionStartedTag ++ sid]) := rfl

lemma handleBT_set (st : DeviceState) (x : List Char) :
    handleBluetoothCommand st (setExerciseCmdTag ++ x) =
      ({ st with exerciseType := arduinoToInt x },
        [exerciseSetTag ++ intToChars (arduinoToInt x)]) := rfl

lemma handleAD_exerciseSet (jp : List Char → Option Json) (x : List Char) :
    handleArduinoData jp (exerciseSetTag ++ x) =
      HostEvent.message (exerciseSetTag ++ x) := rfl

/-! ## Claim theorems -/

/-- C1: the derived joint angle is a pure function of the exercise mode and
the two tiltable angles — mode 0 gives `180 - |pitch|`, mode 1 `|pitch|`,
mode 2 `|roll|`, any other mode `|pitch|` — clamped to `[0, 160]` (in exact
arithmetic the result of the formula is always finite, so the final
NaN-to-0 replacement never fires); in particular mode 2 with roll 30 gives
30, mode 0 with pitch 170 gives 10, mode 1 with pitch −45 gives 45. -/
theorem c1_knee_angle_formula :
    (∀ (mode : ℤ) (r p : ℚ),
      getKneeAngle mode (FVal.fin r) (FVal.fin p) =
        clampQ (kneeAngleSpecFormula mode r p) 0 160) ∧
    getKneeAngle 2 (FVal.fin 30) (FVal.fin 0) = 30 ∧
    getKneeAngle 0 (FVal.fin 0) (FVal.fin 170) = 10 ∧
    getKneeAngle 1 (FVal.fin 0) (FVal.fin (-45)) = 45 := by
  refine ⟨fun mode r p => rfl, ?_, ?_, ?_⟩
  · norm_num [getKneeAngle, clampQ, absQ, safeF]
  · norm_num [getKneeAngle, clampQ, absQ, safeF]
  · norm_num [getKneeAngle, clampQ, absQ, safeF]

/-- C2 counterexample: with session `A` recording, the device accepts a
second `START_SESSION:B` — it overwrites the session id, keeps recording and
acknowledges with `SESSION_STARTED:B`; the host sends the command without
any check.  No conflict rejection happens and the original session does not
survive unmodified. -/
theorem c2_counterexample :
    (handleBluetoothCommand devActiveA (startSessionCmdTag ++ ("B").data)).1 =
      ⟨("B").data, true, 0⟩ ∧
    (handleBluetoothCommand devActiveA (startSessionCmdTag ++ ("B").data)).2 =
      [sessionStartedTag ++ ("B").data] ∧
    ("B").data ≠ ("A").data ∧
    hostStartSession true (("B").data) = some (startSessionCmdTag ++ ("B").data) := by
  refine ⟨rfl, rfl, by decide, rfl⟩

/-- C2 (amended): starting a session while one is active is not rejected —
`SerialService.startSession` unconditionally sends `START_SESSION:<id>`
whenever the port is connected, and the device protocol engine overwrites
the active session id, stays recording, and acknowledges the new session. -/
theorem c2_start_overwrites_active (st : DeviceState) (sid : List Char) :
    handleBluetoothCommand st (startSessionCmdTag ++ sid) =
      (⟨sid, true, st.exerciseType⟩, [sessionStartedTag ++ sid]) ∧
    hostStartSession true sid = some (startSessionCmdTag ++ sid) :=
  ⟨handleBT_start st sid, rfl⟩

/-- C7: whenever the measured elapsed time is ≤ 0 the estimator substitutes
the fixed minimum `0.001 s`; the effective dt is always strictly positive;
and the gyro integration inside `calcTick` uses exactly this clamped dt. -/
theorem c7_dt_clamped :
    (∀ e : ℚ, e ≤ 0 → clampDtQ e = 1 / 1000) ∧
    (∀ e : ℚ, 0 < clampDtQ e) ∧
    (∀ (alpha : ℚ) (st : EstState) (ct : ℚ) (aX aY gX gY gZ : FVal),
      (calcTick alpha st ct aX aY gX gY gZ).gyroAngleZ =
        addF st.gyroAngleZ
          (mulF gZ (FVal.fin (clampDtQ ((ct - st.previousTime) / 1000))))) := by
  refine ⟨?_, ?_, fun alpha st ct aX aY gX gY gZ => rfl⟩
  · intro e he
    simp [clampDtQ, he]
  · intro e
    unfold clampDtQ
    split
    · norm_num
    · linarith [not_le.mp (by assumption : ¬ e ≤ 0)]

/-- Witness for `c7_dt_clamped`: the clamp at the concrete elapsed times 0
and −5. -/
theorem c7_dt_clamped_witness :
    clampDtQ 0 = 1 / 1000 ∧ 0 < clampDtQ (-5) :=
  ⟨c7_dt_clamped.1 0 le_rfl, c7_dt_clamped.2.1 (-5)⟩

/-- C10: for every `SET_EXERCISE:<n>` command the device replies
`EXERCISE_SET:<n>` (and stores the mode), and the host parser classifies any
`EXERCISE_SET:` line as an unrecognized tag, emitting the generic diagnostic
`message` event — not a typed acknowledgment and not an error. -/
theorem c10_exercise_set_diagnostic (st : DeviceState) (n : ℕ)
    (jp : List Char → Option Json) :
    handleBluetoothCommand st (setExerciseCmdTag ++ natToChars n) =
      (⟨st.sessionId, st.isRecording, (n : ℤ)⟩, [exerciseSetTag ++ natToChars n]) ∧
    handleArduinoData jp (exerciseSetTag ++ natToChars n) =
      HostEvent.message (exerciseSetTag ++ natToChars n) := by
  constructor
  · rw [handleBT_set, arduinoToInt_natToChars, intToChars_ofNat]
  · exact handleAD_exerciseSet jp (natToChars n)

/-- C3 counterexample: with session `A` active on the dashboard, a frame for
session `B` is not a no-op — the reading count advances from 0 to 1 even
though the frame's session id differs from the active one
(`updateSessionStats` never consults the frame's session id). -/
theorem c3_counterexample :
    frameB.sessionId ≠ ("A").data ∧
    dashActiveA.currentSessionId = some (("A").data) ∧
    (updateSessionStats 1000 frameB dashActiveA).sessionStats.map
      SessionStatsM.readingCount = some 1 ∧
    dashActiveA.sessionStats.map SessionStatsM.readingCount = some 0 := by
  refine ⟨by decide, rfl, rfl, rfl⟩

/-- C3 (amended): recording a reading is a no-op exactly when no session is
active (no start time, or no stats object); while a session is active the
coordinator updates the aggregates for every frame, regardless of the
frame's session id — the update depends only on the frame's joint angle. -/
theorem c3_reading_noop_only_without_session :
    (∀ (now : ℕ) (data : ArduinoDataM) (st : DashState),
      st.sessionStartTime = none → updateSessionStats now data st = st) ∧
    (∀ (now : ℕ) (data : ArduinoDataM) (st : DashState),
      st.sessionStats = none → updateSessionStats now data st = st) ∧
    (∀ (now : ℕ) (st : DashState) (d1 d2 : ArduinoDataM),
      d1.kneeAngle = d2.kneeAngle →
        updateSessionStats now d1 st = updateSessionStats now d2 st) := by
  refine ⟨?_, ?_, ?_⟩
  · intro now data st h
    unfold updateSessionStats
    rw [h]
  · intro now data st h
    unfold updateSessionStats
    cases hs : st.sessionStartTime with
    | none => rfl
    | some t0 => rw [h]
  · intro now st d1 d2 h
    unfold updateSessionStats
    cases st.sessionStartTime with
    | none => rfl
    | some t0 =>
      cases st.sessionStats with
      | none => rfl
      | some prev => rw [h]

/-- Witness for `c3_reading_noop_only_without_session`: concrete no-op with
no session active, and id-independence of the update for two frames sharing
the joint angle 50. -/
theorem c3_reading_noop_witness :
    updateSessionStats 7 frameB ⟨none, none, none⟩ = ⟨none, none, none⟩ ∧
    updateSessionStats 1000 frameB dashActiveA =
      updateSessionStats 1000 (mkFrame (("A").data) 50) dashActiveA :=
  ⟨c3_reading_noop_only_without_session.1 7 frameB ⟨none, none, none⟩ rfl,
   c3_reading_noop_only_without_session.2.2 1000 dashActiveA frameB
     (mkFrame (("A").data) 50) rfl⟩

/-- C4 counterexample: the running max starts from the literal 0 installed
by the session-start handler, so for the single reading −1 it stays 0 while
the brute-force maximum of the sequence is −1. -/
theorem c4_counterexample :
    (runStats [(-1 : ℚ)]).sessionStats.map SessionStatsM.maxAngle = some 0 ∧
    List.foldl maxQ (-1 : ℚ) [] = -1 ∧
    (0 : ℚ) ≠ -1 := by
  refine ⟨rfl, rfl, by norm_num⟩

/-- C4 (amended): for every sequence of readings the incrementally
maintained mean `(mean·n + x)/(n+1)` equals the brute-force mean exactly
(under the exact arithmetic of the model), and the running max equals the
fold of `Math.max` over the readings started from the initial 0 — hence it
equals the brute-force maximum whenever the readings are nonnegative, but
not in general (see the counterexample). -/
theorem c4_incremental_aggregates (xs : List ℚ) :
    ∃ s : SessionStatsM,
      (runStats xs).sessionStats = some s ∧
      s.readingCount = xs.length ∧
      s.avgAngle * (xs.length : ℚ) = xs.sum ∧
      (xs ≠ [] → s.avgAngle = xs.sum / (xs.length : ℚ)) ∧
      s.maxAngle = xs.foldl maxQ 0 ∧
      ((∀ y ∈ xs, 0 ≤ y) → ∀ (x : ℚ) (t : List ℚ), xs = x :: t →
        s.maxAngle = List.foldl maxQ x t) := by
  obtain ⟨s, hs, hc, ha, hm⟩ := runStats_foldl_spec xs (("s1").data) 0 0 dashInitStats
  have hc' : s.readingCount = xs.length := by simpa [dashInitStats] using hc
  have ha' : s.avgAngle * (xs.length : ℚ) = xs.sum := by
    rw [hc'] at ha
    simpa [dashInitStats] using ha
  refine ⟨s, hs, hc', ha', ?_, ?_, ?_⟩
  · intro hne
    have hlen : (xs.length : ℚ) ≠ 0 := by
      have : xs.length ≠ 0 := fun h0 => hne (List.length_eq_zero.mp h0)
      exact_mod_cast this
    field_simp at ha' ⊢
    linarith [ha']
  · simpa [dashInitStats] using hm
  · intro hpos x t hxt
    subst hxt
    have h0 : maxQ 0 x = x := by
      have hx : (0 : ℚ) ≤ x := hpos x (List.mem_cons_self x t)
      simp [maxQ, hx]
    have := hm
    simp only [dashInitStats, List.foldl_cons, h0] at this
    simpa [dashInitStats, List.foldl_cons, h0] using hm

/-- Witness for `c4_incremental_aggregates`: the readings 3 then 5 give
count 2, mean 4 and max 5. -/
theorem c4_incremental_aggregates_witness :
    ∃ s : SessionStatsM,
      (runStats ((3 : ℚ) :: 5 :: [])).sessionStats = some s ∧
      s.readingCount = 2 ∧ s.avgAngle = 4 ∧ s.maxAngle = 5 := by
  obtain ⟨s, hs, hc, _, hd, hm, _⟩ := c4_incremental_aggregates ((3 : ℚ) :: 5 :: [])
  refine ⟨s, hs, hc.trans rfl, ?_, ?_⟩
  · rw [hd (by simp)]
    norm_num
  · rw [hm]
    norm_num [maxQ]


/-- C5: after every estimator tick — for any state and any per-tick inputs,
NaN included — roll, pitch and yaw are finite and within `[-180, 180]`;
when the complementary-filter blend yields NaN for roll (or pitch), the
previous valid in-range value is retained unchanged; and when the
gyro-integrated yaw is NaN it is replaced by zero. -/
theorem c5_orientation_always_in_range (alpha : ℚ) (st : EstState) (ct : ℚ)
    (aX aY gX gY gZ : FVal) :
    (finInRange (calcTick alpha st ct aX aY gX gY gZ).roll = true ∧
     finInRange (calcTick alpha st ct aX aY gX gY gZ).pitch = true ∧
     finInRange (calcTick alpha st ct aX aY gX gY gZ).yaw = true) ∧
    (blendF alpha st.roll gX (clampDtQ ((ct - st.previousTime) / 1000)) aX = FVal.nan →
      finInRange st.roll = true →
      (calcTick alpha st ct aX aY gX gY gZ).roll = st.roll) ∧
    (blendF alpha st.pitch gY (clampDtQ ((ct - st.previousTime) / 1000)) aY = FVal.nan →
      finInRange st.pitch = true →
      (calcTick alpha st ct aX aY gX gY gZ).pitch = st.pitch) ∧
    (addF st.gyroAngleZ
        (mulF gZ (FVal.fin (clampDtQ ((ct - st.previousTime) / 1000)))) = FVal.nan →
      (calcTick alpha st ct aX aY gX gY gZ).yaw = FVal.fin 0) := by
  refine ⟨⟨?_, ?_, ?_⟩, ?_, ?_, ?_⟩
  · exact finInRange_constrainF _ (isnanF_guard _)
  · exact finInRange_constrainF _ (isnanF_guard _)
  · exact finInRange_constrainF _ (isnanF_guard _)
  · intro hb hr
    have hnan := isnanF_of_finInRange st.roll hr
    have hcalc : (calcTick alpha st ct aX aY gX gY gZ).roll =
        constrainF st.roll (-180) 180 := by
      simp only [calcTick]
      rw [hb]
      simp [isnanF_nan, hnan]
    rw [hcalc]
    exact constrainF_of_finInRange st.roll hr
  · intro hb hr
    have hnan := isnanF_of_finInRange st.pitch hr
    have hcalc : (calcTick alpha st ct aX aY gX gY gZ).pitch =
        constrainF st.pitch (-180) 180 := by
      simp only [calcTick]
      rw [hb]
      simp [isnanF_nan, hnan]
    rw [hcalc]
    exact constrainF_of_finInRange st.pitch hr
  · intro hz
    have hcalc : (calcTick alpha st ct aX aY gX gY gZ).yaw =
        constrainF (FVal.fin 0) (-180) 180 := by
      simp only [calcTick]
      rw [hz]
      simp [isnanF_nan]
    rw [hcalc]
    decide

/-- Witness for `c5_orientation_always_in_range`: a NaN gyro rate makes the
roll blend NaN, and the previous roll 10 survives the tick unchanged. -/
theorem c5_orientation_witness :
    (calcTick (1 / 2) estW 100 (FVal.fin 0) (FVal.fin 0) FVal.nan FVal.nan
      FVal.nan).roll = FVal.fin 10 :=
  (c5_orientation_always_in_range (1 / 2) estW 100 (FVal.fin 0) (FVal.fin 0)
    FVal.nan FVal.nan FVal.nan).2.1 rfl (by decide)

/-- C6: the frame parser classifies each line by its literal tag prefix; a
`KNEE_DATA:` line whose remainder fails JSON decoding or schema validation
yields a `parseError` event carrying the raw line (the failure is caught,
not thrown); the parser is stateless, so each line of a batch — in
particular a valid line following a malformed one — is classified
independently; and a line matching no tag yields the diagnostic `message`
event, not an error. -/
theorem c6_parse_failure_contained :
    (∀ (jp : List Char → Option Json) (line : List Char),
      startsWithL kneeDataTag line = true → jp (line.drop 10) = none →
        handleArduinoData jp line = HostEvent.parseError line) ∧
    (∀ (jp : List Char → Option Json) (line : List Char) (j : Json),
      startsWithL kneeDataTag line = true → jp (line.drop 10) = some j →
        validateArduinoData j = none →
        handleArduinoData jp line = HostEvent.parseError line) ∧
    (∀ (jp : List Char → Option Json) (l1 l2 : List Char),
      processLines jp [l1, l2] = [handleArduinoData jp l1, handleArduinoData jp l2]) ∧
    (∀ (jp : List Char → Option Json) (line : List Char),
      startsWithL kneeDataTag line = false →
      startsWithL sessionStartedTag line = false →
      line ≠ sessionStoppedLine →
      line ≠ calibrationCompleteLine →
      line ≠ systemReadyLine →
      startsWithL statusTag line = false →
        handleArduinoData jp line = HostEvent.message line) := by
  refine ⟨?_, ?_, ?_, ?_⟩
  · intro jp line h1 h2
    simp [handleArduinoData, h1, h2]
  · intro jp line j h1 h2 h3
    simp [handleArduinoData, h1, h2, h3]
  · intro jp l1 l2
    rfl
  · intro jp line h1 h2 h3 h4 h5 h6
    simp [handleArduinoData, h1, h2, h3, h4, h5, h6]

/-- Witness for `c6_parse_failure_contained`: the stub parse maps payload
`x` to an empty JSON object, which fails the schema, so the
`KNEE_DATA:x` line yields `parseError`; and the untagged reply
`EXERCISE_SET:2` yields the diagnostic `message` event. -/
theorem c6_parse_failure_witness :
    handleArduinoData jpStub (kneeDataTag ++ ("x").data) =
      HostEvent.parseError (kneeDataTag ++ ("x").data) ∧
    handleArduinoData jpStub (("EXERCISE_SET:2").data) =
      HostEvent.message (("EXERCISE_SET:2").data) :=
  ⟨c6_parse_failure_contained.2.1 jpStub (kneeDataTag ++ ("x").data) (Json.obj [])
      rfl rfl rfl,
   c6_parse_failure_contained.2.2.2 jpStub (("EXERCISE_SET:2").data)
      rfl rfl (by decide) (by decide) (by decide) rfl⟩

/-- C8: from the initial transport state, after any sequence of completed
`connect`/`disconnect` calls at most one serial handle is live, the trace
carries exactly one `connected` event per successful open, and a `connect`
issued while a connection is live first fully closes it — the step's trace
begins with `disconnected`, and on success the previous handle is gone and
exactly the fresh handle is live. -/
theorem c8_at_most_one_live_transport :
    (∀ ops : List LinkOp,
      (runLink initLinkState ops).1.liveHandles.length ≤ 1 ∧
      countConnected (runLink initLinkState ops).2 = countSuccessfulConnects ops) ∧
    (∀ (st : LinkState) (s : Bool) (p : List Char),
      linkInv st = true → st.isConnected = true →
        (connectStep st s p).2.head? = some LinkEvent.disconnectedEv ∧
        (connectStep st true p).1.liveHandles = [st.nextId] ∧
        (connectStep st true p).2 =
          [LinkEvent.disconnectedEv, LinkEvent.connectedEv p]) := by
  constructor
  · intro ops
    obtain ⟨hinv, hcount⟩ := runLink_spec ops initLinkState rfl
    exact ⟨linkInv_length _ hinv, hcount⟩
  · intro st s p h hconn
    obtain ⟨_, h2, _, _, h5, h6⟩ := disconnectStep_spec st h
    have hevs := h6 hconn
    have hpre : (if st.isConnected then disconnectStep st else (st, [])) =
        disconnectStep st := by
      rw [hconn]
      simp
    refine ⟨?_, ?_, ?_⟩
    · have hrw : (connectStep st s p).2 =
          (if st.isConnected then disconnectStep st else (st, [])).2 ++
            (if s then [LinkEvent.connectedEv p] else [LinkEvent.errorEv]) := by
        cases s <;> rfl
      rw [hrw, hpre, hevs]
      cases s <;> rfl
    · have hrw : (connectStep st true p).1.liveHandles =
          (if st.isConnected then disconnectStep st else (st, [])).1.nextId ::
            (if st.isConnected then disconnectStep st else (st, [])).1.liveHandles := rfl
      rw [hrw, hpre, h2, h5]
    · have hrw : (connectStep st true p).2 =
          (if st.isConnected then disconnectStep st else (st, [])).2 ++
            [LinkEvent.connectedEv p] := rfl
      rw [hrw, hpre, hevs]
      rfl

/-- Witness for `c8_at_most_one_live_transport`: reconnecting while handle 0
is live closes it first and leaves exactly the fresh handle 1 live, with the
trace `disconnected` then `connected`. -/
theorem c8_at_most_one_live_transport_witness :
    (connectStep ⟨some 0, [0], true, some (("p").data), 1⟩ true (("q").data)).1.liveHandles
        = [1] ∧
    (connectStep ⟨some 0, [0], true, some (("p").data), 1⟩ true (("q").data)).2 =
      [LinkEvent.disconnectedEv, LinkEvent.connectedEv (("q").data)] := by
  have h := (c8_at_most_one_live_transport.2
    ⟨some 0, [0], true, some (("p").data), 1⟩ true (("q").data) (by decide) rfl)
  exact ⟨h.2.1, h.2.2⟩

/-- C9 counterexample: a `connect` whose port never emits `open` or `error`
never settles, a `sendCommand` whose write callback never runs never
settles, and the analytics forwarder never settles while its un-timed
`fetch` is pending — no bounded wait exists. -/
theorem c9_counterexample :
    connectResolution [] = none ∧
    sendCommandResolution none = none ∧
    sendSensorDataResolution FetchOutcome.pending = none :=
  ⟨rfl, rfl, rfl⟩

/-- C9 (amended): the operations settle exactly when the events they wait on
occur — `connect` settles iff the port emits `open` or `error`, `sendCommand`
settles iff the write callback runs, and the analytics POST settles iff the
`fetch` settles; none of them is governed by any timeout. -/
theorem c9_settlement_iff_events :
    (∀ sigs : List PortSignal,
      (connectResolution sigs).isSome = true ↔
        (PortSignal.openS ∈ sigs ∨ PortSignal.errorS ∈ sigs)) ∧
    (∀ cb : Option Bool, (sendCommandResolution cb).isSome = cb.isSome) ∧
    (∀ o : FetchOutcome,
      (sendSensorDataResolution o).isSome = true ↔ o ≠ FetchOutcome.pending) := by
  refine ⟨?_, ?_, ?_⟩
  · intro sigs
    induction sigs with
    | nil => simp [connectResolution]
    | cons s rest ih =>
      cases s
      · simp [connectResolution]
      · simp [connectResolution]
      · simp [connectResolution, ih]
      · simp [connectResolution, ih]
  · intro cb
    cases cb <;> rfl
  · intro o
    cases o <;> simp [sendSensorDataResolution]

/-- Witness for `c9_settlement_iff_events`: a late `open` after an
irrelevant `data` signal settles the connect promise. -/
theorem c9_settlement_witness :
    (connectResolution [PortSignal.dataS, PortSignal.openS]).isSome = true :=
  (c9_settlement_iff_events.1 [PortSignal.dataS, PortSignal.openS]).mpr
    (Or.inl (by decide))
